import Mathlib

/-!
Shallow embedding of the Mystara API handlers (per-minute rate-limited
variants): the buffered handler (src/api/gemini.js, per-minute half, and
src/unnamed/part_000 first variant), the re-chunking streaming handler
(src/unnamed/part_001), and the edge streaming frame producer
(src/unnamed/part_000, ReadableStream start callback).

JavaScript `Map` state is modelled as an association list; `Date.now()`
is an explicit `now : Nat` parameter (milliseconds); the upstream
generation call is an explicit `Except String String` parameter (the
`String` in the error carries the thrown error's `.message`, with `""`
standing for a falsy/absent message).
-/

namespace Mystara

/-- One rate-limit record: `{count, resetTime}` as stored in `rateLimits`. -/
structure QuotaRecord where
  count : Nat
  resetTime : Nat
  deriving Repr, DecidableEq

/-- Model of the module-level `const rateLimits = new Map()`:
an association list from `userId` to its record. -/
abbrev RateLimits := List (String × QuotaRecord)

/-- Model of `rateLimits.get(k)`: the value of the first (and, for
states reachable through `Map.set`, only) entry with key `k`. -/
def mapGet : RateLimits → String → Option QuotaRecord
  | [], _ => none
  | p :: ps, k => if p.1 == k then some p.2 else mapGet ps k

/-- Model of `rateLimits.set(k, v)`: replace the entry if the key is
present, otherwise append a fresh entry. -/
def mapSet : RateLimits → String → QuotaRecord → RateLimits
  | [], k, v => [(k, v)]
  | p :: ps, k, v => if p.1 == k then (k, v) :: ps else p :: mapSet ps k v

/-- `const FREE_LIMIT = 10` (requests per window, standard tier). -/
def FREE_LIMIT : Nat := 10

/-- `const PREMIUM_LIMIT = 100` (requests per window, elevated tier). -/
def PREMIUM_LIMIT : Nat := 100

/-- `const RESET_INTERVAL = 60000` (window length in milliseconds). -/
def RESET_INTERVAL : Nat := 60000

/-- `const limit = userIsPremium ? PREMIUM_LIMIT : FREE_LIMIT`. -/
def tierLimit (userIsPremium : Bool) : Nat :=
  if userIsPremium then PREMIUM_LIMIT else FREE_LIMIT

/-- `!userMessage || userMessage.length > 2000` (the per-minute variants
use the 2000-character bound): absent or empty or oversized. -/
def msgInvalid : Option String → Bool
  | none => true
  | some m => m == "" || m.length > 2000

/-- `!userId`: absent or empty. -/
def userIdInvalid : Option String → Bool
  | none => true
  | some u => u == ""

/-- Substring search on character lists: does `need` occur as a
contiguous run inside the second list?  (Model of `String.includes`.) -/
def listContains (need : List Char) : List Char → Bool
  | [] => need.isEmpty
  | c :: rest => need.isPrefixOf (c :: rest) || listContains need rest

/-- `hay.includes(need)` on strings. -/
def strIncludes (hay need : String) : Bool :=
  listContains need.toList hay.toList

/-- `s.toLowerCase()`: lowercase each character. -/
def toLowerStr (s : String) : String :=
  String.mk (s.toList.map Char.toLower)

/-- `const BLOCKED_PHRASES = ['ignore', 'forget', 'bypass', 'jailbreak',
'instrucciones anteriores', 'system prompt']`. -/
def BLOCKED_PHRASES : List String :=
  ["ignore", "forget", "bypass", "jailbreak",
   "instrucciones anteriores", "system prompt"]

/-- `BLOCKED_PHRASES.some(phrase => lowerMessage.includes(phrase))`
with `lowerMessage = userMessage.toLowerCase()`. -/
def isBlocked (userMessage : String) : Bool :=
  BLOCKED_PHRASES.any (fun phrase => strIncludes (toLowerStr userMessage) phrase)

/-- HTTP method of the incoming request, as the handlers discriminate it. -/
inductive Method where
  | OPTIONS
  | POST
  | other
  deriving Repr, DecidableEq

/-- The request-body fields the handlers read (`context` is opaque
pass-through into the prompt and is omitted; `isPremium` is the value
after the `Boolean(isPremium)` coercion). -/
structure Request where
  method : Method
  userMessage : Option String
  userId : Option String
  isPremium : Bool
  deriving Repr, DecidableEq

/-- Outcome of one buffered-handler invocation, keyed by status code and
the payload fields the claims mention. -/
inductive HandlerResult where
  | corsPreflight
  | methodNotAllowed
  | badRequest (error : String)
  | rateLimited (resetIn : Nat)
  | blocked (response : String)
  | success (response : String) (remainingRequests : Nat) (isPremium : Bool)
  | serverError (error : String) (message : String)
  deriving Repr, DecidableEq

/-- Outcome of the per-minute rate-limiting section (identical text in
every per-minute variant): reject with `resetIn`, or admit; in both
cases carrying the updated table. -/
inductive RateStep where
  | rejected (resetIn : Nat) (st : RateLimits)
  | admitted (st : RateLimits)
  deriving Repr, DecidableEq

/-- The rate-limiting section: look the caller up; if present and
`now >= resetTime`, reset the record in place; if the (possibly reset)
count has reached the limit, reject with
`resetIn = Math.ceil((resetTime - now) / 1000)` and no increment,
otherwise increment; if absent, create `{count: 1, resetTime: now +
RESET_INTERVAL}`. -/
def rateLimitStep (st : RateLimits) (userId : String) (limit : Nat)
    (now : Nat) : RateStep :=
  match mapGet st userId with
  | some rec =>
    let rec1 : QuotaRecord :=
      if now ≥ rec.resetTime then ⟨0, now + RESET_INTERVAL⟩ else rec
    let st1 : RateLimits :=
      if now ≥ rec.resetTime then mapSet st userId rec1 else st
    if rec1.count ≥ limit then
      .rejected ((rec1.resetTime - now + 999) / 1000) st1
    else
      .admitted (mapSet st1 userId ⟨rec1.count + 1, rec1.resetTime⟩)
  | none =>
    .admitted (mapSet st userId ⟨1, now + RESET_INTERVAL⟩)

/-- `if (rateLimits.size > 10000) rateLimits.clear()`. -/
def postAdmitClear (st : RateLimits) : RateLimits :=
  if st.length > 10000 then [] else st

/-- The buffered handler of src/api/gemini.js (per-minute half): CORS
preflight, method check, validations, rate limiting, capacity clear,
the log's `currentLimit.count` read (a `TypeError` caught by the outer
catch when the clear just removed the record), content filter, upstream
call, and the success payload with
`remainingRequests = limit - count` floored at 0.  The outer catch
always answers with the fixed generic 500 payload. -/
def handler (st : RateLimits) (req : Request) (now : Nat)
    (upstream : Except String String) : HandlerResult × RateLimits :=
  if req.method = Method.OPTIONS then (.corsPreflight, st)
  else if req.method ≠ Method.POST then (.methodNotAllowed, st)
  else if msgInvalid req.userMessage then (.badRequest "Mensaje inválido", st)
  else if userIdInvalid req.userId then (.badRequest "User ID requerido", st)
  else
    let userMessage := req.userMessage.getD ""
    let userId := req.userId.getD ""
    let limit := tierLimit req.isPremium
    match rateLimitStep st userId limit now with
    | .rejected resetIn st1 => (.rateLimited resetIn, st1)
    | .admitted st2 =>
      let st3 := postAdmitClear st2
      match mapGet st3 userId with
      | none =>
        (.serverError "Error al conectar con la guía espiritual"
          "Por favor, intenta de nuevo.", st3)
      | some _ =>
        if isBlocked userMessage then
          (.blocked "Solo puedo ayudarte con tarot y rituales ✨", st3)
        else
          match upstream with
          | .error _ =>
            (.serverError "Error al conectar con la guía espiritual"
              "Por favor, intenta de nuevo.", st3)
          | .ok text =>
            match mapGet st3 userId with
            | none =>
              (.serverError "Error al conectar con la guía espiritual"
                "Por favor, intenta de nuevo.", st3)
            | some cur =>
              let remaining : Int := (limit : Int) - (cur.count : Int)
              (.success text
                (if 0 ≤ remaining then remaining.toNat else 0)
                req.isPremium, st3)

/-- The buffered handler of src/unnamed/part_000 (first variant).  Same
pipeline as `handler` plus the `GEMINI_API_KEY` presence check, and an
inner catch around the upstream call that answers 500 with
`message: geminiError.message || 'Por favor, intenta de nuevo.'` —
i.e. it forwards the upstream error's own message when non-empty. -/
def handlerP0 (st : RateLimits) (req : Request) (now : Nat)
    (apiKeyPresent : Bool) (upstream : Except String String) :
    HandlerResult × RateLimits :=
  if req.method = Method.OPTIONS then (.corsPreflight, st)
  else if req.method ≠ Method.POST then (.methodNotAllowed, st)
  else if msgInvalid req.userMessage then (.badRequest "Mensaje inválido", st)
  else if userIdInvalid req.userId then (.badRequest "User ID requerido", st)
  else
    let userMessage := req.userMessage.getD ""
    let userId := req.userId.getD ""
    let limit := tierLimit req.isPremium
    match rateLimitStep st userId limit now with
    | .rejected resetIn st1 => (.rateLimited resetIn, st1)
    | .admitted st2 =>
      let st3 := postAdmitClear st2
      match mapGet st3 userId with
      | none =>
        (.serverError "Error al conectar con la guía espiritual"
          "Por favor, intenta de nuevo.", st3)
      | some _ =>
        if isBlocked userMessage then
          (.blocked "Solo puedo ayudarte con tarot y rituales ✨", st3)
        else if !apiKeyPresent then
          (.serverError "Error de configuración del servidor"
            "Por favor, intenta de nuevo.", st3)
        else
          match upstream with
          | .error e =>
            (.serverError "Error al conectar con la guía espiritual"
              (if e == "" then "Por favor, intenta de nuevo." else e), st3)
          | .ok text =>
            match mapGet st3 userId with
            | none =>
              (.serverError "Error al conectar con la guía espiritual"
                "Por favor, intenta de nuevo.", st3)
            | some cur =>
              let remaining : Int := (limit : Int) - (cur.count : Int)
              (.success text
                (if 0 ≤ remaining then remaining.toNat else 0)
                req.isPremium, st3)

/-- One unit of a streamed (SSE) response body. -/
inductive Frame where
  | text (s : String)
  | metadata (remainingRequests : Nat) (isPremium : Bool)
  | errorFrame (error : String) (message : String)
  | done
  deriving Repr, DecidableEq, BEq

/-- `true` exactly on metadata frames. -/
def Frame.isMeta : Frame → Bool
  | .metadata _ _ => true
  | _ => false

/-- `true` exactly on the terminal sentinel frame (`data: [DONE]`). -/
def Frame.isDone : Frame → Bool
  | .done => true
  | _ => false

/-- The re-chunking loop of src/unnamed/part_001: successive
`responseText.slice(i, i + 20)` slices (`chunkSize = 20`). -/
def sliceChunks (cs : List Char) : List String :=
  if cs.isEmpty then []
  else String.mk (cs.take 20) :: sliceChunks (cs.drop 20)
termination_by cs.length
decreasing_by
  simp only [List.length_drop]
  cases cs with
  | nil => simp_all
  | cons c rest => simp; omega

/-- The frame sequence written by src/unnamed/part_001 after the SSE
headers are set: on upstream success, the 20-character text chunks then
the `data: [DONE]` sentinel; on upstream error, one error frame with
`message: geminiError.message || '...'` then the sentinel. -/
def streamFramesPart001 (upstream : Except String String) : List Frame :=
  match upstream with
  | .ok text => (sliceChunks text.toList).map Frame.text ++ [Frame.done]
  | .error e =>
    [Frame.errorFrame "Error al conectar con la guía espiritual"
      (if e == "" then "Por favor, intenta de nuevo." else e),
     Frame.done]

/-- The `ReadableStream` start callback of the first edge streaming
variant in src/unnamed/part_000: forward each non-empty upstream chunk
as a text frame; on normal completion re-read the caller's record and
emit one metadata frame (`remainingRequests` floored at 0, `isPremium`)
then the sentinel; the catch emits one error frame and closes the
stream WITHOUT a sentinel.  `chunks` are the chunks yielded before the
stream either completed (`err = none`) or threw (`err = some _`); a
missing record at the re-read throws inside the try and lands in the
same catch. -/
def streamFramesV3 (st : RateLimits) (userId : String) (limit : Nat)
    (userIsPremium : Bool) (chunks : List String) (err : Option String) :
    List Frame :=
  let textFrames := (chunks.filter (fun c => !(c == ""))).map Frame.text
  match err with
  | some _ =>
    textFrames ++
      [Frame.errorFrame "Error al generar la respuesta"
        "Por favor, intenta de nuevo."]
  | none =>
    match mapGet st userId with
    | none =>
      textFrames ++
        [Frame.errorFrame "Error al generar la respuesta"
          "Por favor, intenta de nuevo."]
    | some cur =>
      let remaining : Int := (limit : Int) - (cur.count : Int)
      textFrames ++
        [Frame.metadata (if 0 ≤ remaining then remaining.toNat else 0)
          userIsPremium,
         Frame.done]

/-- Outcome of one src/unnamed/part_001 invocation: either a plain JSON
HTTP response (sent before the SSE headers), or an SSE frame stream. -/
inductive P1Result where
  | http (r : HandlerResult)
  | sse (frames : List Frame)
  deriving Repr, DecidableEq

/-- `true` exactly on the streamed outcome. -/
def P1Result.isSse : P1Result → Bool
  | .sse _ => true
  | _ => false

/-- The streaming handler of src/unnamed/part_001: identical validation,
rate limiting, capacity clear, log read and content filter as the
buffered handler — all answered as plain JSON HTTP responses — and only
then the SSE headers are set and the frame stream produced. -/
def handlerStream (st : RateLimits) (req : Request) (now : Nat)
    (upstream : Except String String) : P1Result × RateLimits :=
  if req.method = Method.OPTIONS then (.http .corsPreflight, st)
  else if req.method ≠ Method.POST then (.http .methodNotAllowed, st)
  else if msgInvalid req.userMessage then
    (.http (.badRequest "Mensaje inválido"), st)
  else if userIdInvalid req.userId then
    (.http (.badRequest "User ID requerido"), st)
  else
    let userMessage := req.userMessage.getD ""
    let userId := req.userId.getD ""
    let limit := tierLimit req.isPremium
    match rateLimitStep st userId limit now with
    | .rejected resetIn st1 => (.http (.rateLimited resetIn), st1)
    | .admitted st2 =>
      let st3 := postAdmitClear st2
      match mapGet st3 userId with
      | none =>
        (.http (.serverError "Error al conectar con la guía espiritual"
          "Por favor, intenta de nuevo."), st3)
      | some _ =>
        if isBlocked userMessage then
          (.http (.blocked "Solo puedo ayudarte con tarot y rituales ✨"), st3)
        else
          (.sse (streamFramesPart001 upstream), st3)

/-- The count a request from `uid` at time `now` is evaluated against:
the stored count after the window-reset normalisation (0 when no record
exists or the window has elapsed). -/
def effCount (st : RateLimits) (uid : String) (now : Nat) : Nat :=
  match mapGet st uid with
  | none => 0
  | some rec => if now ≥ rec.resetTime then 0 else rec.count

/-- The `resetTime` the caller's record carries after the request is
admitted: a fresh `now + RESET_INTERVAL` when the caller was absent or
the window had elapsed, the unchanged `resetTime` otherwise. -/
def effTime (st : RateLimits) (uid : String) (now : Nat) : Nat :=
  match mapGet st uid with
  | none => now + RESET_INTERVAL
  | some rec =>
    if now ≥ rec.resetTime then now + RESET_INTERVAL else rec.resetTime

/-- One serialized handler invocation, as seen by the shared table. -/
structure Event where
  req : Request
  now : Nat
  upstream : Except String String

/-- Run a serialized sequence of buffered-handler invocations against
the shared table, starting from `st`. -/
def runTrace (st : RateLimits) (evs : List Event) : RateLimits :=
  evs.foldl (fun s ev => (handler s ev.req ev.now ev.upstream).2) st

/-- The table carried by either outcome of the rate-limiting section. -/
def RateStep.state : RateStep → RateLimits
  | .rejected _ st => st
  | .admitted st => st

/-! ### Association-list lemmas -/

theorem mapGet_mapSet_self (m : RateLimits) (k : String) (v : QuotaRecord) :
    mapGet (mapSet m k v) k = some v := by
  induction m with
  | nil => simp [mapGet, mapSet]
  | cons p ps ih =>
    by_cases h : p.1 = k
    · simp [mapGet, mapSet, h]
    · simp only [mapSet, mapGet, beq_iff_eq, h, if_false]
      exact ih

theorem mapGet_mapSet_ne (m : RateLimits) (k k' : String) (v : QuotaRecord)
    (h : k' ≠ k) : mapGet (mapSet m k v) k' = mapGet m k' := by
  have h2 : ¬(k = k') := fun hh => h hh.symm
  induction m with
  | nil => simp [mapGet, mapSet, h2]
  | cons p ps ih =>
    by_cases hp : p.1 = k
    · simp [mapGet, mapSet, hp, h2]
    · simp only [mapSet, mapGet, beq_iff_eq, hp, if_false]
      by_cases hp' : p.1 = k'
      · simp [mapGet, hp']
      · simp only [mapGet, beq_iff_eq, hp', if_false]
        exact ih

theorem length_mapSet_get_some (m : RateLimits) (k : String)
    (v w : QuotaRecord) (h : mapGet m k = some w) :
    (mapSet m k v).length = m.length := by
  induction m with
  | nil => simp [mapGet] at h
  | cons p ps ih =>
    by_cases hp : p.1 = k
    · simp [mapSet, hp]
    · simp only [mapGet, beq_iff_eq, hp, if_false] at h
      simp only [mapSet, beq_iff_eq, hp, if_false, List.length_cons]
      exact congrArg (· + 1) (ih h)

theorem length_mapSet_get_none (m : RateLimits) (k : String)
    (v : QuotaRecord) (h : mapGet m k = none) :
    (mapSet m k v).length = m.length + 1 := by
  induction m with
  | nil => simp [mapSet]
  | cons p ps ih =>
    by_cases hp : p.1 = k
    · simp [mapGet, hp] at h
    · simp only [mapGet, beq_iff_eq, hp, if_false] at h
      simp only [mapSet, beq_iff_eq, hp, if_false, List.length_cons]
      exact congrArg (· + 1) (ih h)

theorem mapGet_replicate_ne (n : Nat) (k k' : String) (v : QuotaRecord)
    (h : k' ≠ k) : mapGet (List.replicate n (k, v)) k' = none := by
  have h2 : ¬(k = k') := fun hh => h hh.symm
  induction n with
  | zero => simp [mapGet]
  | succ n ih => simpa [mapGet, List.replicate_succ, h2] using ih

/-! ### Rate-limiting-section lemmas -/

theorem tierLimit_pos (p : Bool) : 0 < tierLimit p := by
  cases p <;> simp [tierLimit, FREE_LIMIT, PREMIUM_LIMIT]

/-- When the (window-normalised) count has reached the limit, the
section rejects with the ceiling retry hint and leaves the table
exactly as it was. -/
theorem rateLimitStep_of_ge (st : RateLimits) (uid : String)
    (limit now : Nat) (hl : 0 < limit)
    (h : limit ≤ effCount st uid now) :
    ∃ rec, mapGet st uid = some rec ∧ now < rec.resetTime ∧
      limit ≤ rec.count ∧
      rateLimitStep st uid limit now =
        .rejected ((rec.resetTime - now + 999) / 1000) st := by
  cases hrec : mapGet st uid with
  | none => simp only [effCount, hrec] at h; omega
  | some rec =>
    simp only [effCount, hrec] at h
    by_cases hreset : now ≥ rec.resetTime
    · simp only [if_pos hreset] at h; omega
    · simp only [if_neg hreset] at h
      refine ⟨rec, rfl, by omega, h, ?_⟩
      simp only [rateLimitStep, hrec, if_neg hreset, if_pos h]

/-- When the (window-normalised) count is below the limit, the section
admits: the caller's record becomes `count + 1` for the normalised
count, the table's size grows only when the caller was absent, no other
caller's entry changes, and the admitting request is the only write. -/
theorem rateLimitStep_of_lt (st : RateLimits) (uid : String)
    (limit now : Nat) (h : effCount st uid now < limit) :
    ∃ st2, rateLimitStep st uid limit now = .admitted st2 ∧
      mapGet st2 uid = some ⟨effCount st uid now + 1, effTime st uid now⟩ ∧
      (mapGet st uid = none → st2.length = st.length + 1) ∧
      ((mapGet st uid).isSome → st2.length = st.length) ∧
      (∀ uid2, uid2 ≠ uid → mapGet st2 uid2 = mapGet st uid2) := by
  cases hrec : mapGet st uid with
  | none =>
    simp only [effCount, hrec] at h
    refine ⟨mapSet st uid ⟨1, now + RESET_INTERVAL⟩, ?_,
      by simp only [effCount, effTime, hrec]; exact mapGet_mapSet_self ..,
      fun _ => length_mapSet_get_none st uid _ hrec, ?_, ?_⟩
    · simp only [rateLimitStep, hrec]
    · intro hs; simp at hs
    · intro uid2 hne; exact mapGet_mapSet_ne st uid uid2 _ hne
  | some rec =>
    simp only [effCount, hrec] at h
    by_cases hreset : now ≥ rec.resetTime
    · simp only [if_pos hreset] at h
      refine ⟨mapSet (mapSet st uid ⟨0, now + RESET_INTERVAL⟩) uid
          ⟨1, now + RESET_INTERVAL⟩, ?_,
        by simp only [effCount, effTime, hrec, if_pos hreset]
           exact mapGet_mapSet_self ..,
        ?_, ?_, ?_⟩
      · simp only [rateLimitStep, hrec, if_pos hreset]
        rw [if_neg (by omega)]
      · intro hnone; simp at hnone
      · intro _
        rw [length_mapSet_get_some _ uid _ _ (mapGet_mapSet_self ..),
          length_mapSet_get_some _ uid _ _ hrec]
      · intro uid2 hne
        rw [mapGet_mapSet_ne _ uid uid2 _ hne, mapGet_mapSet_ne _ uid uid2 _ hne]
    · simp only [if_neg hreset] at h
      refine ⟨mapSet st uid ⟨rec.count + 1, rec.resetTime⟩, ?_,
        by simp only [effCount, effTime, hrec, if_neg hreset]
           exact mapGet_mapSet_self ..,
        ?_, ?_, ?_⟩
      · simp only [rateLimitStep, hrec, if_neg hreset]
        rw [if_neg (by omega)]
      · intro hnone; simp at hnone
      · intro _; exact length_mapSet_get_some _ uid _ _ hrec
      · intro uid2 hne; exact mapGet_mapSet_ne st uid uid2 _ hne

/-- Invariant: `uid`'s stored count (when a record exists) is at most `L`. -/
def countOk (st : RateLimits) (uid : String) (L : Nat) : Prop :=
  ∀ rec, mapGet st uid = some rec → rec.count ≤ L

theorem countOk_nil (uid : String) (L : Nat) : countOk [] uid L := by
  intro rec hr
  simp [mapGet] at hr

/-- A request keyed to a different caller never changes `uid`'s entry
through the rate-limiting section. -/
theorem rateLimitStep_state_get_other (st : RateLimits) (u : String)
    (limit now : Nat) (uid : String) (hne : uid ≠ u) :
    mapGet (RateStep.state (rateLimitStep st u limit now)) uid =
      mapGet st uid := by
  cases hrec : mapGet st u with
  | none =>
    simp only [rateLimitStep, hrec, RateStep.state]
    exact mapGet_mapSet_ne _ _ _ _ hne
  | some rec =>
    by_cases hreset : now ≥ rec.resetTime
    · simp only [rateLimitStep, hrec, if_pos hreset]
      split
      · simp only [RateStep.state]
        exact mapGet_mapSet_ne _ _ _ _ hne
      · simp only [RateStep.state]
        rw [mapGet_mapSet_ne _ _ _ _ hne, mapGet_mapSet_ne _ _ _ _ hne]
    · simp only [rateLimitStep, hrec, if_neg hreset]
      split
      · simp only [RateStep.state]
      · simp only [RateStep.state]
        exact mapGet_mapSet_ne _ _ _ _ hne

theorem countOk_postAdmitClear (st : RateLimits) (uid : String) (L : Nat)
    (h : countOk st uid L) : countOk (postAdmitClear st) uid L := by
  unfold postAdmitClear
  split
  · exact countOk_nil uid L
  · exact h

/-- The table a buffered-handler invocation leaves behind is either the
input table (early exit), the rate-limiting section's table, or that
table after the capacity clear — and in the latter two cases the
request had passed validation. -/
theorem handler_state_shape (st : RateLimits) (req : Request) (now : Nat)
    (up : Except String String) :
    (handler st req now up).2 = st ∨
    (userIdInvalid req.userId = false ∧
      (handler st req now up).2 =
        RateStep.state
          (rateLimitStep st (req.userId.getD "") (tierLimit req.isPremium) now)) ∨
    (userIdInvalid req.userId = false ∧
      (handler st req now up).2 =
        postAdmitClear
          (RateStep.state
            (rateLimitStep st (req.userId.getD "") (tierLimit req.isPremium) now))) := by
  by_cases hopt : req.method = Method.OPTIONS
  · exact Or.inl (by simp [handler, hopt])
  by_cases hpost : req.method = Method.POST
  case neg => exact Or.inl (by simp [handler, hopt, hpost])
  by_cases hmsg : msgInvalid req.userMessage
  · exact Or.inl (by simp [handler, hopt, hpost, hmsg])
  by_cases hid : userIdInvalid req.userId
  · exact Or.inl (by simp [handler, hopt, hpost, hmsg, hid])
  cases hstep : rateLimitStep st (req.userId.getD "") (tierLimit req.isPremium) now with
  | rejected r st1 =>
    refine Or.inr (Or.inl ⟨by simpa using hid, ?_⟩)
    simp [handler, hopt, hpost, hmsg, hid, hstep, RateStep.state]
  | admitted st2 =>
    refine Or.inr (Or.inr ⟨by simpa using hid, ?_⟩)
    simp only [handler, hopt, hpost, hmsg, hid, hstep, RateStep.state,
      if_false, ite_false, ne_eq, not_true_eq_false, Bool.false_eq_true]
    cases hget : mapGet (postAdmitClear st2) (req.userId.getD "") with
    | none => simp [hget]
    | some cur =>
      simp only [hget]
      by_cases hb : isBlocked (req.userMessage.getD "")
      · simp [hb]
      · simp only [hb, Bool.false_eq_true, if_false, ite_false]
        cases up with
        | error e => simp
        | ok text =>
          cases hget2 : mapGet (postAdmitClear st2) (req.userId.getD "") with
          | none => simp [hget2]
          | some cur2 => simp [hget2]

/-- One pass through the rate-limiting section for `uid` itself keeps
`uid`'s count at or below the limit it was admitted against. -/
theorem countOk_rateLimitStep_self (st : RateLimits) (uid : String)
    (L now : Nat) (hL : 0 < L) (h : countOk st uid L) :
    countOk (RateStep.state (rateLimitStep st uid L now)) uid L := by
  by_cases hc : L ≤ effCount st uid now
  · obtain ⟨rec, hrec, _, _, hstep⟩ := rateLimitStep_of_ge st uid L now hL hc
    rw [hstep]
    exact h
  · obtain ⟨st2, hstep, hget, _, _, _⟩ :=
      rateLimitStep_of_lt st uid L now (by omega)
    rw [hstep]
    intro rec hr
    rw [RateStep.state] at hr
    rw [hget] at hr
    cases hr
    simp only []
    omega

/-- A validated request preserves the count bound through the
rate-limiting section, whatever caller it is keyed to. -/
theorem countOk_state_of_countOk {L : Nat} {uid : String} {st : RateLimits}
    {req : Request} {now : Nat} (hL : 0 < L)
    (hkey : req.userId = some uid → tierLimit req.isPremium = L)
    (hid : userIdInvalid req.userId = false)
    (h : countOk st uid L) :
    countOk
      (RateStep.state
        (rateLimitStep st (req.userId.getD "") (tierLimit req.isPremium) now))
      uid L := by
  by_cases hu : uid = req.userId.getD ""
  · cases hopt : req.userId with
    | none => rw [hopt] at hid; simp [userIdInvalid] at hid
    | some u =>
      have huu : uid = u := by rw [hu, hopt]; rfl
      have hLim : tierLimit req.isPremium = L := by
        apply hkey; rw [hopt, huu]
      simp only [Option.getD_some, hLim, ← huu]
      exact countOk_rateLimitStep_self st uid L now hL h
  · intro rec hr
    rw [rateLimitStep_state_get_other st _ _ now uid hu] at hr
    exact h rec hr

/-- One serialized buffered-handler invocation preserves the count
bound for `uid`, provided every request keyed to `uid` carries the
limit `L`. -/
theorem handler_countOk (L : Nat) (hL : 0 < L) (uid : String)
    (st : RateLimits) (req : Request) (now : Nat) (up : Except String String)
    (hkey : req.userId = some uid → tierLimit req.isPremium = L)
    (h : countOk st uid L) : countOk (handler st req now up).2 uid L := by
  rcases handler_state_shape st req now up with hs | ⟨hid, hs⟩ | ⟨hid, hs⟩
  · rw [hs]; exact h
  · rw [hs]
    exact countOk_state_of_countOk hL hkey hid h
  · rw [hs]
    exact countOk_postAdmitClear _ _ _ (countOk_state_of_countOk hL hkey hid h)

/-- Serialized traces preserve the count bound. -/
theorem runTrace_countOk (p : Bool) (uid : String) (evs : List Event)
    (hp : ∀ ev ∈ evs, ev.req.userId = some uid → ev.req.isPremium = p)
    (st : RateLimits) (h : countOk st uid (tierLimit p)) :
    countOk (runTrace st evs) uid (tierLimit p) := by
  induction evs generalizing st with
  | nil => exact h
  | cons ev evs ih =>
    simp only [runTrace, List.foldl_cons]
    refine ih (fun e he hu => hp e (List.mem_cons_of_mem _ he) hu) _ ?_
    refine handler_countOk _ (tierLimit_pos p) uid st ev.req ev.now ev.upstream
      (fun hu => ?_) h
    rw [hp ev (List.mem_cons_self _ _) hu]

/-- A below-limit caller is admitted and, when the table is not at
capacity, the clear is a no-op and the caller's record shows the
incremented count. -/
theorem admit_pipeline (st : RateLimits) (uid : String) (L now : Nat)
    (hadm : effCount st uid now < L) (hlen : st.length < 10000) :
    ∃ st2, rateLimitStep st uid L now = .admitted st2 ∧
      postAdmitClear st2 = st2 ∧
      mapGet st2 uid = some ⟨effCount st uid now + 1, effTime st uid now⟩ := by
  obtain ⟨st2, hstep, hget, hlen1, hlen2, _⟩ :=
    rateLimitStep_of_lt st uid L now hadm
  refine ⟨st2, hstep, ?_, hget⟩
  have hb : st2.length ≤ 10000 := by
    cases hrec : mapGet st uid with
    | none => rw [hlen1 hrec]; omega
    | some rec =>
      rw [hlen2 (by rw [hrec]; rfl)]
      omega
  unfold postAdmitClear
  rw [if_neg (by omega)]

/-- Full description of a validated, admitted buffered-handler request
when the table is below capacity: the caller's record carries the
incremented count and the normalised reset time, and the response is
the canned reply, a generic 500, or the success payload, according to
the filter and the upstream outcome. -/
theorem handler_admitted_eq (st : RateLimits) (req : Request) (now : Nat)
    (hm : req.method = Method.POST)
    (hmsg : msgInvalid req.userMessage = false)
    (hid : userIdInvalid req.userId = false)
    (hadm : effCount st (req.userId.getD "") now < tierLimit req.isPremium)
    (hlen : st.length < 10000) :
    ∃ st2,
      mapGet st2 (req.userId.getD "") =
        some ⟨effCount st (req.userId.getD "") now + 1,
              effTime st (req.userId.getD "") now⟩ ∧
      ∀ up, handler st req now up =
        ((if isBlocked (req.userMessage.getD "") then
            HandlerResult.blocked "Solo puedo ayudarte con tarot y rituales ✨"
          else
            match up with
            | .error _ =>
              HandlerResult.serverError "Error al conectar con la guía espiritual"
                "Por favor, intenta de nuevo."
            | .ok text =>
              HandlerResult.success text
                (if 0 ≤ (tierLimit req.isPremium : Int) -
                      ((effCount st (req.userId.getD "") now + 1 : Nat) : Int)
                 then ((tierLimit req.isPremium : Int) -
                      ((effCount st (req.userId.getD "") now + 1 : Nat) : Int)).toNat
                 else 0)
                req.isPremium),
         st2) := by
  obtain ⟨st2, hstep, hclear, hget⟩ :=
    admit_pipeline st (req.userId.getD "") (tierLimit req.isPremium) now hadm hlen
  refine ⟨st2, hget, fun up => ?_⟩
  simp only [handler, hm, hmsg, hid, hstep, hclear, hget]
  by_cases hb : isBlocked (req.userMessage.getD "")
  · simp [hb]
  · simp only [hb, Bool.false_eq_true, if_false, ite_false]
    cases up with
    | error e => simp
    | ok text => simp

/-! ### The claims -/

/-- C3: a request from a caller whose (possibly just-reset) count has
reached the tier limit is answered 429 with
`resetIn = ceil((windowResetAt - now) / 1000)` and the table is left
exactly unchanged: a rejected request does not increment `count`. -/
theorem c3_reject_leaves_record_unchanged (st : RateLimits) (req : Request)
    (now : Nat) (up : Except String String) (rec : QuotaRecord)
    (hm : req.method = Method.POST)
    (hmsg : msgInvalid req.userMessage = false)
    (hid : userIdInvalid req.userId = false)
    (hrec : mapGet st (req.userId.getD "") = some rec)
    (hge : tierLimit req.isPremium ≤
      (if now ≥ rec.resetTime then 0 else rec.count)) :
    handler st req now up =
      (HandlerResult.rateLimited ((rec.resetTime - now + 999) / 1000), st) := by
  have heff : tierLimit req.isPremium ≤
      effCount st (req.userId.getD "") now := by
    simpa only [effCount, hrec] using hge
  obtain ⟨rec2, hrec2, hlt, hcnt, hstep⟩ :=
    rateLimitStep_of_ge st (req.userId.getD "") (tierLimit req.isPremium) now
      (tierLimit_pos _) heff
  have hr2 : rec2 = rec := by
    rw [hrec] at hrec2
    exact (Option.some.inj hrec2).symm
  subst hr2
  simp [handler, hm, hmsg, hid, hstep]

theorem c3_witness :
    handler [("u1", ⟨10, 60000⟩)]
        ⟨Method.POST, some "hola tarot", some "u1", false⟩ 0 (.ok "t") =
      (HandlerResult.rateLimited ((60000 - 0 + 999) / 1000),
       [("u1", ⟨10, 60000⟩)]) :=
  c3_reject_leaves_record_unchanged _ _ _ _ ⟨10, 60000⟩ rfl rfl rfl
    (by decide) (by decide)

/-- C4: a request from a caller with an existing record whose window
has elapsed (`now ≥ windowResetAt`) is never rate limited — the count
is reset before evaluation — and it leaves the caller's record in a
fresh window: `count = 1`, `windowResetAt = now + 60000`. -/
theorem c4_elapsed_window_resets (st : RateLimits) (req : Request)
    (now : Nat) (up : Except String String) (rec : QuotaRecord)
    (hm : req.method = Method.POST)
    (hmsg : msgInvalid req.userMessage = false)
    (hid : userIdInvalid req.userId = false)
    (hrec : mapGet st (req.userId.getD "") = some rec)
    (hnow : rec.resetTime ≤ now)
    (hlen : st.length < 10000) :
    (∀ r, (handler st req now up).1 ≠ HandlerResult.rateLimited r) ∧
    mapGet (handler st req now up).2 (req.userId.getD "") =
      some ⟨1, now + RESET_INTERVAL⟩ := by
  have heff : effCount st (req.userId.getD "") now = 0 := by
    simp only [effCount, hrec, if_pos hnow]
  have htime : effTime st (req.userId.getD "") now = now + RESET_INTERVAL := by
    simp only [effTime, hrec, if_pos hnow]
  have hadm : effCount st (req.userId.getD "") now <
      tierLimit req.isPremium := by
    rw [heff]; exact tierLimit_pos _
  obtain ⟨st2, hget, hall⟩ := handler_admitted_eq st req now hm hmsg hid hadm hlen
  rw [hall up]
  constructor
  · intro r
    by_cases hb : isBlocked (req.userMessage.getD "")
    · simp [hb]
    · cases up with
      | error e => simp [hb]
      | ok text => simp [hb]
  · simpa [heff, htime] using hget

theorem c4_witness :
    (∀ r, (handler [("u1", ⟨7, 500⟩)]
        ⟨Method.POST, some "hola tarot", some "u1", false⟩ 1000
        (.ok "t")).1 ≠ HandlerResult.rateLimited r) ∧
    mapGet (handler [("u1", ⟨7, 500⟩)]
        ⟨Method.POST, some "hola tarot", some "u1", false⟩ 1000
        (.ok "t")).2 "u1" = some ⟨1, 1000 + RESET_INTERVAL⟩ :=
  c4_elapsed_window_resets _ _ _ _ ⟨7, 500⟩ rfl rfl rfl (by decide)
    (by decide) (by decide)

/-- C8: a POST whose `userMessage` is absent, empty or longer than 2000
characters, or whose `userId` is missing, is answered 400 immediately:
the quota table is untouched (no record created or modified) and the
response does not depend on the upstream generator at all. -/
theorem c8_validation_before_quota (st : RateLimits) (req : Request)
    (now : Nat) (up : Except String String)
    (hm : req.method = Method.POST)
    (hv : msgInvalid req.userMessage = true ∨
      userIdInvalid req.userId = true) :
    handler st req now up =
      ((if msgInvalid req.userMessage then
          HandlerResult.badRequest "Mensaje inválido"
        else HandlerResult.badRequest "User ID requerido"), st) := by
  rcases hv with hv | hv
  · simp [handler, hm, hv]
  · by_cases hmsg : msgInvalid req.userMessage
    · simp [handler, hm, hmsg]
    · simp [handler, hm, hmsg, hv]

theorem c8_witness :
    handler [] ⟨Method.POST, none, some "u1", false⟩ 0 (.ok "t") =
      ((if msgInvalid none then HandlerResult.badRequest "Mensaje inválido"
        else HandlerResult.badRequest "User ID requerido"), []) :=
  c8_validation_before_quota _ _ _ _ rfl (Or.inl rfl)

/-- C10: a validated first request from a new caller arriving when the
table already holds 10000 entries is admitted and written, which pushes
the table past 10000; the clear then wipes the whole table, the log's
re-read finds nothing and throws, and the outer catch answers the
admitting request itself with the generic 500 — the final table is
empty. -/
theorem c10_capacity_clear_backfires (st : RateLimits) (req : Request)
    (now : Nat) (up : Except String String)
    (hm : req.method = Method.POST)
    (hmsg : msgInvalid req.userMessage = false)
    (hid : userIdInvalid req.userId = false)
    (hnone : mapGet st (req.userId.getD "") = none)
    (hlen : 10000 ≤ st.length) :
    handler st req now up =
      (HandlerResult.serverError "Error al conectar con la guía espiritual"
        "Por favor, intenta de nuevo.", []) := by
  have hstep : rateLimitStep st (req.userId.getD "")
      (tierLimit req.isPremium) now =
      .admitted (mapSet st (req.userId.getD "") ⟨1, now + RESET_INTERVAL⟩) := by
    simp only [rateLimitStep, hnone]
  have hlen2 : (mapSet st (req.userId.getD "")
      ⟨1, now + RESET_INTERVAL⟩).length = st.length + 1 :=
    length_mapSet_get_none _ _ _ hnone
  have hclear : postAdmitClear
      (mapSet st (req.userId.getD "") ⟨1, now + RESET_INTERVAL⟩) = [] := by
    unfold postAdmitClear
    rw [if_pos (by omega)]
  simp [handler, hm, hmsg, hid, hstep, hclear, mapGet]

theorem c10_witness :
    handler (List.replicate 10000 ("a", ⟨1, 0⟩))
        ⟨Method.POST, some "hola", some "b", false⟩ 0 (.ok "t") =
      (HandlerResult.serverError "Error al conectar con la guía espiritual"
        "Por favor, intenta de nuevo.", []) :=
  c10_capacity_clear_backfires _ _ _ _ rfl rfl rfl
    (mapGet_replicate_ne 10000 "a" "b" ⟨1, 0⟩ (by decide))
    (by rw [List.length_replicate])

/-- C1: under serialized handling starting from the empty table, a
caller whose requests all carry one fixed tier never has a stored count
above that tier's limit (10 standard, 100 elevated); moreover a
validated request from that caller, with the table below capacity,
either finds the window-normalised count below the limit and increments
it by exactly one, or is rejected with a 429 that leaves the table
unchanged. -/
theorem c1_count_bounded_by_tier_limit :
    (∀ (p : Bool) (uid : String) (evs : List Event),
      (∀ ev ∈ evs, ev.req.userId = some uid → ev.req.isPremium = p) →
      ∀ rec, mapGet (runTrace [] evs) uid = some rec →
        rec.count ≤ tierLimit p) ∧
    (∀ (st : RateLimits) (req : Request) (now : Nat)
        (up : Except String String) (uid : String),
      req.method = Method.POST →
      msgInvalid req.userMessage = false →
      req.userId = some uid →
      userIdInvalid req.userId = false →
      st.length < 10000 →
      (effCount st uid now < tierLimit req.isPremium ∧
        mapGet (handler st req now up).2 uid =
          some ⟨effCount st uid now + 1, effTime st uid now⟩) ∨
      (tierLimit req.isPremium ≤ effCount st uid now ∧
        (handler st req now up).1 =
          HandlerResult.rateLimited ((effTime st uid now - now + 999) / 1000) ∧
        (handler st req now up).2 = st)) := by
  constructor
  · intro p uid evs hp rec hrec
    exact runTrace_countOk p uid evs hp [] (countOk_nil uid (tierLimit p))
      rec hrec
  · intro st req now up uid hm hmsg huid hid hlen
    have hgd : req.userId.getD "" = uid := by rw [huid]; rfl
    by_cases hc : effCount st uid now < tierLimit req.isPremium
    · left
      refine ⟨hc, ?_⟩
      obtain ⟨st2, hget, hall⟩ :=
        handler_admitted_eq st req now hm hmsg hid (by rw [hgd]; exact hc) hlen
      rw [hgd] at hget
      rw [hall up]
      simpa using hget
    · right
      push_neg at hc
      obtain ⟨rec, hrec, hlt, hcnt, hstep⟩ :=
        rateLimitStep_of_ge st uid (tierLimit req.isPremium) now
          (tierLimit_pos _) hc
      have htime : effTime st uid now = rec.resetTime := by
        simp only [effTime, hrec, if_neg (by omega : ¬ now ≥ rec.resetTime)]
      have heq : handler st req now up =
          (HandlerResult.rateLimited ((rec.resetTime - now + 999) / 1000), st) := by
        simp [handler, hm, hmsg, hid, hgd, hstep]
      refine ⟨hc, ?_, ?_⟩
      · rw [heq, htime]
      · rw [heq]

theorem c1_witness :
    (QuotaRecord.count ⟨1, 60000⟩ ≤ tierLimit false) ∧
    ((effCount [] "u1" 0 < tierLimit false ∧
        mapGet (handler [] ⟨Method.POST, some "hola tarot", some "u1", false⟩
          0 (.ok "t")).2 "u1" =
          some ⟨effCount [] "u1" 0 + 1, effTime [] "u1" 0⟩) ∨
      (tierLimit false ≤ effCount [] "u1" 0 ∧
        (handler [] ⟨Method.POST, some "hola tarot", some "u1", false⟩
          0 (.ok "t")).1 =
          HandlerResult.rateLimited ((effTime [] "u1" 0 - 0 + 999) / 1000) ∧
        (handler [] ⟨Method.POST, some "hola tarot", some "u1", false⟩
          0 (.ok "t")).2 = [])) :=
  ⟨c1_count_bounded_by_tier_limit.1 false "u1"
      [⟨⟨Method.POST, some "hola tarot", some "u1", false⟩, 0, .ok "t"⟩]
      (by intro ev hev hu; rw [List.mem_singleton] at hev; subst hev; rfl)
      ⟨1, 60000⟩ (by decide),
   c1_count_bounded_by_tier_limit.2 []
      ⟨Method.POST, some "hola tarot", some "u1", false⟩ 0 (.ok "t") "u1"
      rfl rfl rfl rfl (by decide)⟩

/-- C5: a caller's first-ever request is never rate limited, creating
the record `{count: 1, resetTime: now + 60000}`; when the filter does
not match and the upstream call succeeds, the response reports
`remainingRequests = limit - 1`; and every success payload reports
`remainingRequests = limit - count` with the count read after the
increment, floored at 0. -/
theorem c5_first_request_and_remaining :
    (∀ (st : RateLimits) (req : Request) (now : Nat)
        (up : Except String String) (text : String),
      req.method = Method.POST →
      msgInvalid req.userMessage = false →
      userIdInvalid req.userId = false →
      mapGet st (req.userId.getD "") = none →
      st.length < 10000 →
      (∀ r, (handler st req now up).1 ≠ HandlerResult.rateLimited r) ∧
      mapGet (handler st req now up).2 (req.userId.getD "") =
        some ⟨1, now + RESET_INTERVAL⟩ ∧
      (isBlocked (req.userMessage.getD "") = false →
        (handler st req now (.ok text)).1 =
          HandlerResult.success text (tierLimit req.isPremium - 1)
            req.isPremium)) ∧
    (∀ (st : RateLimits) (req : Request) (now : Nat)
        (up : Except String String) (text : String) (rem : Nat) (p : Bool)
        (st' : RateLimits),
      handler st req now up = (HandlerResult.success text rem p, st') →
      ∃ cur, mapGet st' (req.userId.getD "") = some cur ∧
        rem = (if 0 ≤ (tierLimit req.isPremium : Int) - (cur.count : Int)
               then ((tierLimit req.isPremium : Int) -
                 (cur.count : Int)).toNat
               else 0)) := by
  constructor
  · intro st req now up text hm hmsg hid hnone hlen
    have heff : effCount st (req.userId.getD "") now = 0 := by
      simp only [effCount, hnone]
    have htime : effTime st (req.userId.getD "") now =
        now + RESET_INTERVAL := by
      simp only [effTime, hnone]
    have hadm : effCount st (req.userId.getD "") now <
        tierLimit req.isPremium := by
      rw [heff]; exact tierLimit_pos _
    obtain ⟨st2, hget, hall⟩ :=
      handler_admitted_eq st req now hm hmsg hid hadm hlen
    refine ⟨?_, ?_, ?_⟩
    · intro r
      rw [hall up]
      by_cases hb : isBlocked (req.userMessage.getD "")
      · simp [hb]
      · cases up with
        | error e => simp [hb]
        | ok t2 => simp [hb]
    · rw [hall up]
      simpa [heff, htime] using hget
    · intro hnb
      rw [hall (.ok text)]
      have hL := tierLimit_pos req.isPremium
      simp only [hnb, Bool.false_eq_true, if_false, ite_false, heff]
      have harg : (if 0 ≤ (tierLimit req.isPremium : Int) - ((0 + 1 : Nat) : Int)
          then ((tierLimit req.isPremium : Int) - ((0 + 1 : Nat) : Int)).toNat
          else 0) = tierLimit req.isPremium - 1 := by
        rw [if_pos (by push_cast; omega)]
        omega
      rw [harg]
  · intro st req now up text rem p st' h
    by_cases hopt : req.method = Method.OPTIONS
    · simp [handler, hopt] at h
    by_cases hpost : req.method = Method.POST
    case neg => simp [handler, hopt, hpost] at h
    by_cases hmsg : msgInvalid req.userMessage
    · simp [handler, hopt, hpost, hmsg] at h
    by_cases hid : userIdInvalid req.userId
    · simp [handler, hopt, hpost, hmsg, hid] at h
    cases hstep : rateLimitStep st (req.userId.getD "")
        (tierLimit req.isPremium) now with
    | rejected r st1 =>
      simp only [handler, hstep] at h
      rw [if_neg hopt, if_neg (not_not_intro hpost), if_neg hmsg,
        if_neg hid] at h
      simp at h
    | admitted st2 =>
      simp only [handler, hstep] at h
      rw [if_neg hopt, if_neg (not_not_intro hpost), if_neg hmsg,
        if_neg hid] at h
      cases hget : mapGet (postAdmitClear st2) (req.userId.getD "") with
      | none =>
        rw [hget] at h
        simp at h
      | some cur =>
        rw [hget] at h
        by_cases hb : isBlocked (req.userMessage.getD "")
        · rw [if_pos hb] at h
          simp at h
        · rw [if_neg hb] at h
          cases up with
          | error e => simp at h
          | ok txt =>
            simp only [Prod.mk.injEq, HandlerResult.success.injEq] at h
            obtain ⟨⟨ht, hrem, hp⟩, h2⟩ := h
            exact ⟨cur, by rw [← h2]; exact hget, hrem.symm⟩

theorem c5_witness :
    ((∀ r, (handler [] ⟨Method.POST, some "hola tarot", some "u1", false⟩
        0 (.ok "t")).1 ≠ HandlerResult.rateLimited r) ∧
      mapGet (handler [] ⟨Method.POST, some "hola tarot", some "u1", false⟩
        0 (.ok "t")).2 "u1" = some ⟨1, 0 + RESET_INTERVAL⟩ ∧
      (isBlocked "hola tarot" = false →
        (handler [] ⟨Method.POST, some "hola tarot", some "u1", false⟩
          0 (.ok "t")).1 =
          HandlerResult.success "t" (tierLimit false - 1) false)) ∧
    (∃ cur, mapGet [("u1", ⟨1, 60000⟩)] "u1" = some cur ∧
      9 = (if 0 ≤ (tierLimit false : Int) - (cur.count : Int)
           then ((tierLimit false : Int) - (cur.count : Int)).toNat
           else 0)) :=
  ⟨c5_first_request_and_remaining.1 []
      ⟨Method.POST, some "hola tarot", some "u1", false⟩ 0 (.ok "t") "t"
      rfl rfl rfl rfl (by decide),
   c5_first_request_and_remaining.2 []
      ⟨Method.POST, some "hola tarot", some "u1", false⟩ 0 (.ok "t") "t"
      9 false [("u1", ⟨1, 60000⟩)] (by decide)⟩

/-- C7: an admitted request whose message matches the denylist
case-insensitively (for example "jailbreak" in any case) is answered
with the fixed canned reply, the response does not depend on the
upstream generator at all, and the count consumed at the admit step
stays consumed. -/
theorem c7_blocked_short_circuits (st : RateLimits) (req : Request)
    (now : Nat) (up up' : Except String String)
    (hm : req.method = Method.POST)
    (hmsg : msgInvalid req.userMessage = false)
    (hid : userIdInvalid req.userId = false)
    (hb : isBlocked (req.userMessage.getD "") = true)
    (hadm : effCount st (req.userId.getD "") now < tierLimit req.isPremium)
    (hlen : st.length < 10000) :
    handler st req now up = handler st req now up' ∧
    (handler st req now up).1 =
      HandlerResult.blocked "Solo puedo ayudarte con tarot y rituales ✨" ∧
    mapGet (handler st req now up).2 (req.userId.getD "") =
      some ⟨effCount st (req.userId.getD "") now + 1,
            effTime st (req.userId.getD "") now⟩ := by
  obtain ⟨st2, hget, hall⟩ :=
    handler_admitted_eq st req now hm hmsg hid hadm hlen
  refine ⟨by rw [hall up, hall up']; simp [hb], ?_, ?_⟩
  · rw [hall up]
    simp [hb]
  · rw [hall up]
    simpa using hget

theorem c7_witness :
    handler [] ⟨Method.POST, some "JaIlBrEaK ahora", some "u1", false⟩ 0
        (.ok "t") =
      handler [] ⟨Method.POST, some "JaIlBrEaK ahora", some "u1", false⟩ 0
        (.error "boom") ∧
    (handler [] ⟨Method.POST, some "JaIlBrEaK ahora", some "u1", false⟩ 0
        (.ok "t")).1 =
      HandlerResult.blocked "Solo puedo ayudarte con tarot y rituales ✨" ∧
    mapGet (handler [] ⟨Method.POST, some "JaIlBrEaK ahora", some "u1", false⟩
        0 (.ok "t")).2 "u1" =
      some ⟨effCount [] "u1" 0 + 1, effTime [] "u1" 0⟩ :=
  c7_blocked_short_circuits [] _ 0 (.ok "t") (.error "boom")
    rfl rfl rfl (by decide) (by decide) (by decide)

/-- Text frames never satisfy a predicate that is false on `Frame.text`. -/
theorem countP_map_text_eq_zero (p : Frame → Bool)
    (hp : ∀ s, p (Frame.text s) = false) (l : List String) :
    (l.map Frame.text).countP p = 0 := by
  rw [List.countP_map]
  refine List.countP_eq_zero.mpr ?_
  intro a _
  simp [Function.comp, hp]

/-- C2 counterexample: in the part_000 edge streaming variant, a
mid-stream upstream error produces a frame sequence that ends with the
error frame and not with the `data: [DONE]` sentinel. -/
theorem c2_counterexample :
    streamFramesV3 [("u1", ⟨1, 60000⟩)] "u1" 10 false ["Hola"]
        (some "boom") =
      [Frame.text "Hola",
       Frame.errorFrame "Error al generar la respuesta"
         "Por favor, intenta de nuevo."] ∧
    (streamFramesV3 [("u1", ⟨1, 60000⟩)] "u1" 10 false ["Hola"]
        (some "boom")).getLast? ≠ some Frame.done := by
  constructor <;> decide

/-- C2 (amended): in the part_000 edge streaming variant a successful
stream ends with exactly one sentinel, preceded immediately by exactly
one metadata frame (carrying the floored remaining quota and the tier)
that comes after every text frame, while a mid-stream error yields the
error frame as the last frame, with no metadata frame and no sentinel;
in the part_001 re-chunking variant no metadata frame is ever emitted:
success ends with exactly one sentinel after the text chunks, and an
upstream error yields exactly an error frame followed by the
sentinel. -/
theorem c2_stream_frame_discipline :
    (∀ (st : RateLimits) (uid : String) (L : Nat) (p : Bool)
        (chunks : List String) (cur : QuotaRecord),
      mapGet st uid = some cur →
      (streamFramesV3 st uid L p chunks none).getLast? = some Frame.done ∧
      (streamFramesV3 st uid L p chunks none).countP Frame.isDone = 1 ∧
      (streamFramesV3 st uid L p chunks none).countP Frame.isMeta = 1 ∧
      (streamFramesV3 st uid L p chunks none).dropLast.getLast? =
        some (Frame.metadata
          (if 0 ≤ (L : Int) - (cur.count : Int)
           then ((L : Int) - (cur.count : Int)).toNat else 0) p)) ∧
    (∀ (st : RateLimits) (uid : String) (L : Nat) (p : Bool)
        (chunks : List String) (e : String),
      (streamFramesV3 st uid L p chunks (some e)).getLast? =
        some (Frame.errorFrame "Error al generar la respuesta"
          "Por favor, intenta de nuevo.") ∧
      (streamFramesV3 st uid L p chunks (some e)).countP Frame.isDone = 0 ∧
      (streamFramesV3 st uid L p chunks (some e)).countP Frame.isMeta = 0) ∧
    (∀ text : String,
      (streamFramesPart001 (.ok text)).getLast? = some Frame.done ∧
      (streamFramesPart001 (.ok text)).countP Frame.isDone = 1 ∧
      (streamFramesPart001 (.ok text)).countP Frame.isMeta = 0) ∧
    (∀ e : String,
      streamFramesPart001 (.error e) =
        [Frame.errorFrame "Error al conectar con la guía espiritual"
          (if e == "" then "Por favor, intenta de nuevo." else e),
         Frame.done]) := by
  refine ⟨?_, ?_, ?_, fun e => rfl⟩
  · intro st uid L p chunks cur hcur
    have hfs : streamFramesV3 st uid L p chunks none =
        ((chunks.filter (fun c => !(c == ""))).map Frame.text) ++
          [Frame.metadata
            (if 0 ≤ (L : Int) - (cur.count : Int)
             then ((L : Int) - (cur.count : Int)).toNat else 0) p,
           Frame.done] := by
      simp only [streamFramesV3, hcur]
    rw [hfs]
    have hassoc : ∀ (m : Frame),
        ((chunks.filter (fun c => !(c == ""))).map Frame.text) ++
          [m, Frame.done] =
        (((chunks.filter (fun c => !(c == ""))).map Frame.text) ++ [m]) ++
          [Frame.done] := by
      intro m
      rw [List.append_assoc]
      rfl
    refine ⟨?_, ?_, ?_, ?_⟩
    · rw [hassoc]
      exact List.getLast?_concat _
    · rw [List.countP_append,
        countP_map_text_eq_zero Frame.isDone (fun s => rfl)]
      simp [List.countP_cons, Frame.isDone, Frame.isMeta]
    · rw [List.countP_append,
        countP_map_text_eq_zero Frame.isMeta (fun s => rfl)]
      simp [List.countP_cons, Frame.isDone, Frame.isMeta]
    · rw [hassoc, List.dropLast_concat]
      exact List.getLast?_concat _
  · intro st uid L p chunks e
    have hfs : streamFramesV3 st uid L p chunks (some e) =
        ((chunks.filter (fun c => !(c == ""))).map Frame.text) ++
          [Frame.errorFrame "Error al generar la respuesta"
            "Por favor, intenta de nuevo."] := by
      simp only [streamFramesV3]
    rw [hfs]
    refine ⟨List.getLast?_concat _, ?_, ?_⟩
    · rw [List.countP_append,
        countP_map_text_eq_zero Frame.isDone (fun s => rfl)]
      simp [List.countP_cons, Frame.isDone]
    · rw [List.countP_append,
        countP_map_text_eq_zero Frame.isMeta (fun s => rfl)]
      simp [List.countP_cons, Frame.isMeta]
  · intro text
    simp only [streamFramesPart001]
    refine ⟨List.getLast?_concat _, ?_, ?_⟩
    · rw [List.countP_append,
        countP_map_text_eq_zero Frame.isDone (fun s => rfl)]
      simp [List.countP_cons, Frame.isDone]
    · rw [List.countP_append,
        countP_map_text_eq_zero Frame.isMeta (fun s => rfl)]
      simp [List.countP_cons, Frame.isMeta]

theorem c2_witness :
    ((streamFramesV3 [("u1", ⟨1, 60000⟩)] "u1" 10 false ["Hola"]
        none).getLast? = some Frame.done ∧
      (streamFramesV3 [("u1", ⟨1, 60000⟩)] "u1" 10 false ["Hola"]
        none).countP Frame.isDone = 1 ∧
      (streamFramesV3 [("u1", ⟨1, 60000⟩)] "u1" 10 false ["Hola"]
        none).countP Frame.isMeta = 1 ∧
      (streamFramesV3 [("u1", ⟨1, 60000⟩)] "u1" 10 false ["Hola"]
        none).dropLast.getLast? =
        some (Frame.metadata
          (if 0 ≤ (10 : Int) - ((1 : Nat) : Int)
           then ((10 : Int) - ((1 : Nat) : Int)).toNat else 0) false)) ∧
    ((streamFramesPart001 (.ok "Hola")).getLast? = some Frame.done ∧
      (streamFramesPart001 (.ok "Hola")).countP Frame.isDone = 1 ∧
      (streamFramesPart001 (.ok "Hola")).countP Frame.isMeta = 0) :=
  ⟨c2_stream_frame_discipline.1 [("u1", ⟨1, 60000⟩)] "u1" 10 false ["Hola"]
      ⟨1, 60000⟩ (by decide),
   c2_stream_frame_discipline.2.2.1 "Hola"⟩

/-- C6 counterexample: in the part_000 buffered variant, an upstream
error after admission is answered 500 with the upstream error's own
message in the `message` field — raw fault detail reaches the caller,
not the fixed generic message. -/
theorem c6_counterexample :
    (handlerP0 [] ⟨Method.POST, some "hola tarot", some "u1", false⟩ 0 true
        (.error "upstream socket hangup")).1 =
      HandlerResult.serverError "Error al conectar con la guía espiritual"
        "upstream socket hangup" ∧
    "upstream socket hangup" ≠ "Por favor, intenta de nuevo." := by
  constructor <;> decide

/-- C6 (amended): when the upstream call throws after admission the
caller receives a 500 payload (buffered) or an error frame followed by
the sentinel (streaming) whose `error` field is the fixed generic
string; the gemini.js variant also fixes the `message` field, while the
part_000 buffered variant and the part_001 streaming variant forward
the upstream error's own message when non-empty; in every variant the
quota count consumed by the request is not reverted. -/
theorem c6_upstream_error_behaviour :
    (∀ (st : RateLimits) (req : Request) (now : Nat) (e : String),
      req.method = Method.POST →
      msgInvalid req.userMessage = false →
      userIdInvalid req.userId = false →
      isBlocked (req.userMessage.getD "") = false →
      effCount st (req.userId.getD "") now < tierLimit req.isPremium →
      st.length < 10000 →
      (handler st req now (.error e)).1 =
        HandlerResult.serverError "Error al conectar con la guía espiritual"
          "Por favor, intenta de nuevo." ∧
      mapGet (handler st req now (.error e)).2 (req.userId.getD "") =
        some ⟨effCount st (req.userId.getD "") now + 1,
              effTime st (req.userId.getD "") now⟩) ∧
    (∀ (st : RateLimits) (req : Request) (now : Nat) (e : String),
      req.method = Method.POST →
      msgInvalid req.userMessage = false →
      userIdInvalid req.userId = false →
      isBlocked (req.userMessage.getD "") = false →
      effCount st (req.userId.getD "") now < tierLimit req.isPremium →
      st.length < 10000 →
      (handlerP0 st req now true (.error e)).1 =
        HandlerResult.serverError "Error al conectar con la guía espiritual"
          (if e == "" then "Por favor, intenta de nuevo." else e) ∧
      mapGet (handlerP0 st req now true (.error e)).2 (req.userId.getD "") =
        some ⟨effCount st (req.userId.getD "") now + 1,
              effTime st (req.userId.getD "") now⟩) ∧
    (∀ (st : RateLimits) (req : Request) (now : Nat) (e : String),
      req.method = Method.POST →
      msgInvalid req.userMessage = false →
      userIdInvalid req.userId = false →
      isBlocked (req.userMessage.getD "") = false →
      effCount st (req.userId.getD "") now < tierLimit req.isPremium →
      st.length < 10000 →
      (handlerStream st req now (.error e)).1 =
        P1Result.sse
          [Frame.errorFrame "Error al conectar con la guía espiritual"
            (if e == "" then "Por favor, intenta de nuevo." else e),
           Frame.done] ∧
      mapGet (handlerStream st req now (.error e)).2 (req.userId.getD "") =
        some ⟨effCount st (req.userId.getD "") now + 1,
              effTime st (req.userId.getD "") now⟩) := by
  refine ⟨?_, ?_, ?_⟩
  · intro st req now e hm hmsg hid hnb hadm hlen
    obtain ⟨st2, hget, hall⟩ :=
      handler_admitted_eq st req now hm hmsg hid hadm hlen
    rw [hall (.error e)]
    exact ⟨by simp [hnb], by simpa using hget⟩
  · intro st req now e hm hmsg hid hnb hadm hlen
    obtain ⟨st2, hstep, hclear, hget⟩ :=
      admit_pipeline st (req.userId.getD "") (tierLimit req.isPremium) now
        hadm hlen
    have heq : handlerP0 st req now true (.error e) =
        (HandlerResult.serverError "Error al conectar con la guía espiritual"
          (if e == "" then "Por favor, intenta de nuevo." else e), st2) := by
      simp only [handlerP0, hm, hmsg, hid, hstep, hclear, hget]
      simp [hnb]
    rw [heq]
    exact ⟨rfl, by simpa using hget⟩
  · intro st req now e hm hmsg hid hnb hadm hlen
    obtain ⟨st2, hstep, hclear, hget⟩ :=
      admit_pipeline st (req.userId.getD "") (tierLimit req.isPremium) now
        hadm hlen
    have heq : handlerStream st req now (.error e) =
        (P1Result.sse (streamFramesPart001 (.error e)), st2) := by
      simp only [handlerStream, hm, hmsg, hid, hstep, hclear, hget]
      simp [hnb]
    rw [heq]
    exact ⟨by simp [streamFramesPart001], by simpa using hget⟩

theorem c6_witness :
    ((handler [] ⟨Method.POST, some "hola tarot", some "u1", false⟩ 0
        (.error "boom")).1 =
      HandlerResult.serverError "Error al conectar con la guía espiritual"
        "Por favor, intenta de nuevo." ∧
      mapGet (handler [] ⟨Method.POST, some "hola tarot", some "u1", false⟩
        0 (.error "boom")).2 "u1" =
        some ⟨effCount [] "u1" 0 + 1, effTime [] "u1" 0⟩) ∧
    ((handlerStream [] ⟨Method.POST, some "hola tarot", some "u1", false⟩ 0
        (.error "boom")).1 =
      P1Result.sse
        [Frame.errorFrame "Error al conectar con la guía espiritual"
          (if "boom" == "" then "Por favor, intenta de nuevo." else "boom"),
         Frame.done] ∧
      mapGet (handlerStream []
        ⟨Method.POST, some "hola tarot", some "u1", false⟩ 0
        (.error "boom")).2 "u1" =
        some ⟨effCount [] "u1" 0 + 1, effTime [] "u1" 0⟩) :=
  ⟨c6_upstream_error_behaviour.1 []
      ⟨Method.POST, some "hola tarot", some "u1", false⟩ 0 "boom"
      rfl rfl rfl (by decide) (by decide) (by decide),
   c6_upstream_error_behaviour.2.2 []
      ⟨Method.POST, some "hola tarot", some "u1", false⟩ 0 "boom"
      rfl rfl rfl (by decide) (by decide) (by decide)⟩

/-- C9 counterexample: in the part_001 streaming deployment a request
with a missing caller id is answered with a plain HTTP 400 JSON
response, not with an error frame and the sentinel. -/
theorem c9_counterexample :
    (handlerStream [] ⟨Method.POST, some "hola", none, false⟩ 0
        (.ok "t")).1 =
      P1Result.http (HandlerResult.badRequest "User ID requerido") ∧
    ((handlerStream [] ⟨Method.POST, some "hola", none, false⟩ 0
        (.ok "t")).1).isSse = false := by
  constructor <;> decide

/-- C9 (amended): in the part_001 streaming deployment, pre-flight
validation failures (missing caller id, oversized or missing message)
are answered as plain HTTP 400 JSON before the SSE headers are set —
never through the frame protocol — and the quota table is untouched. -/
theorem c9_validation_is_bare_http (st : RateLimits) (req : Request)
    (now : Nat) (up : Except String String)
    (hm : req.method = Method.POST)
    (hv : msgInvalid req.userMessage = true ∨
      userIdInvalid req.userId = true) :
    handlerStream st req now up =
      (P1Result.http (if msgInvalid req.userMessage then
          HandlerResult.badRequest "Mensaje inválido"
        else HandlerResult.badRequest "User ID requerido"), st) ∧
    ((handlerStream st req now up).1).isSse = false := by
  have h1 : handlerStream st req now up =
      (P1Result.http (if msgInvalid req.userMessage then
          HandlerResult.badRequest "Mensaje inválido"
        else HandlerResult.badRequest "User ID requerido"), st) := by
    rcases hv with hv | hv
    · simp [handlerStream, hm, hv]
    · by_cases hmsg : msgInvalid req.userMessage
      · simp [handlerStream, hm, hmsg]
      · simp [handlerStream, hm, hmsg, hv]
  refine ⟨h1, ?_⟩
  rw [h1]
  by_cases hmsg : msgInvalid req.userMessage <;> simp [hmsg, P1Result.isSse]

theorem c9_witness :
    handlerStream [] ⟨Method.POST, some "hola", some "", false⟩ 0
        (.ok "t") =
      (P1Result.http (if msgInvalid (some "hola") then
          HandlerResult.badRequest "Mensaje inválido"
        else HandlerResult.badRequest "User ID requerido"), []) ∧
    ((handlerStream [] ⟨Method.POST, some "hola", some "", false⟩ 0
        (.ok "t")).1).isSse = false :=
  c9_validation_is_bare_http [] ⟨Method.POST, some "hola", some "", false⟩
    0 (.ok "t") rfl (Or.inr rfl)

end Mystara